import Mathlib

/-!
Verification of the retrieval core of the ReguChatAI repository
(`vector_store.py`, `rag_pipeline.py`).

Shallow embedding conventions:
* Embedding vectors are lists of rationals (`Vec := List ℚ`); the Python code
  uses float32 arrays, but every property verified here concerns only
  comparisons, filtering and ordering of scores, which are representation
  independent.
* The external OpenAI embedding service is an environment parameter
  `emb : List String → Except String (List Vec)`; an `Except.error` models the
  exception raised inside `_get_embeddings`.  Operations return, next to their
  result, the list of batches sent to the embedding service, so that claims
  about "no external call is made" are statable.
* A Python method that can raise is modelled as returning the post-call state
  together with `Option String` (the raised exception message, `none` when the
  call returns normally).
* Python dict metadata records are modelled as structures holding exactly the
  keys the retrieval core reads (`source`, `chunk_id`, `file_type`, plus the
  keys `add_documents` itself writes: `content`, `doc_id`, `vector_index`).
-/

namespace ReguChat

/-- A dense embedding vector (row of the numpy matrix). -/
abbrev Vec := List ℚ

/-- The external embedding service: one batch of texts in, one batch of
vectors (or an exception) out.  Models `VectorStore._get_embeddings`. -/
abbrev Emb := List String → Except String (List Vec)

/-- Squared L2 norm of a vector. -/
def sqNorm (v : Vec) : ℚ := (v.map (fun x => x * x)).sum

/-- Inner product of two vectors (FAISS `IndexFlatIP` metric). -/
def dot (u v : Vec) : ℚ := (List.zipWith (fun x y => x * y) u v).sum

/-- Embedding of `faiss.normalize_L2` (C++ `fvec_renorm_L2`): a vector whose
squared norm is zero is left unchanged (the C++ code guards the division with
`if (nr > 0)`); otherwise the vector is rescaled by a positive factor
depending on its norm.  ℚ has no square root, so the positive-norm branch
divides by the squared norm rather than the norm; every theorem below depends
only on the zero-norm passthrough, on length preservation and on the ordering
of the resulting scores at the concrete inputs used, never on the exact scale
factor. -/
def normalize_L2 (v : Vec) : Vec :=
  if sqNorm v = 0 then v else v.map (fun x => x / sqNorm v)

/-- A `langchain` `Document` as produced by `DocumentProcessor`: raw text plus
the metadata keys the retrieval core later reads. -/
structure Document where
  page_content : String
  source : Option String
  chunk_id : Option Nat
  file_type : Option String
deriving DecidableEq

/-- A metadata record stored in `VectorStore.documents`: the copied document
metadata updated with `content`, `doc_id` and `vector_index`
(`add_documents`, lines 79-86). -/
structure DocMeta where
  source : Option String
  chunk_id : Option Nat
  file_type : Option String
  content : String
  doc_id : Nat
  vector_index : Nat
deriving DecidableEq

/-- A row returned by `similarity_search`: the stored metadata record with the
`score` key added. -/
structure SearchResult where
  source : Option String
  chunk_id : Option Nat
  file_type : Option String
  content : String
  doc_id : Nat
  vector_index : Nat
  score : ℚ
deriving DecidableEq

/-- The state of a `VectorStore`: the FAISS `IndexFlatIP` (its stored vectors
in insertion order), the metadata list and the running document counter. -/
structure VectorStore where
  embedding_dimension : Nat
  index : List Vec
  documents : List DocMeta
  document_count : Nat
deriving DecidableEq

/-- `VectorStore.__init__`. -/
def VectorStore.init (dim : Nat) : VectorStore :=
  { embedding_dimension := dim, index := [], documents := [], document_count := 0 }

/-- `VectorStore.clear` (lines 143-147): fresh index, empty metadata, counter
reset. -/
def VectorStore.clear (store : VectorStore) : VectorStore :=
  { embedding_dimension := store.embedding_dimension
    index := [], documents := [], document_count := 0 }

def embedFailMsg (e : String) : String := "Error generating embeddings: " ++ e

def addFailMsg (e : String) : String :=
  "Error adding documents to vector store: " ++ e

def searchFailMsg (e : String) : String :=
  "Error performing similarity search: " ++ e

/-- The metadata record built for one document inside `add_documents`. -/
def Document.toMeta (doc : Document) (doc_id vector_index : Nat) : DocMeta :=
  { source := doc.source, chunk_id := doc.chunk_id, file_type := doc.file_type
    content := doc.page_content, doc_id := doc_id, vector_index := vector_index }

/-- Embedding of `VectorStore.add_documents` (lines 55-91).  Returns the state
after the call, the exception raised (if any), and the batches sent to the
embedding service.  Failure points in the Python code, in order: the
`_get_embeddings` call, and `index.add` (which raises before storing anything
when a vector does not match the index dimension); both precede the first
mutation of `self`, so on every failure the state is returned untouched.
Note on line 84: `len(self.documents)` is evaluated inside the loop, after
the `i` appends of the previous iterations, so the record built for the i-th
document of a batch carries `vector_index = (prior_len + i) + i`. -/
def add_documents (emb : Emb) (store : VectorStore) (documents : List Document) :
    VectorStore × Option String × List (List String) :=
  if documents.isEmpty then (store, none, [])
  else
    let texts := documents.map (fun d => d.page_content)
    match emb texts with
    | .error e => (store, some (addFailMsg (embedFailMsg e)), [texts])
    | .ok rawEmbeddings =>
      let embeddings := rawEmbeddings.map normalize_L2
      if embeddings.all (fun v => v.length = store.embedding_dimension) then
        ({ store with
            index := store.index ++ embeddings
            documents := store.documents ++ documents.enum.map
              (fun p => p.2.toMeta (store.document_count + p.1)
                (store.documents.length + p.1 + p.1))
            document_count := store.document_count + documents.length },
         none, [texts])
      else
        (store, some (addFailMsg "vector dimension does not match index dimension"),
         [texts])

/-- Comparator under which FAISS flat-index results are sorted: descending
score, ties broken by ascending id (FAISS heaps compare `(value, id)`
lexicographically for determinism). -/
def candidateLE (a b : Nat × ℚ) : Bool :=
  decide (b.2 < a.2 ∨ (a.2 = b.2 ∧ a.1 ≤ b.1))

/-- All `(position, inner-product score)` pairs of a query against the stored
vectors. -/
def scoreAll (vecs : List Vec) (q : Vec) : List (Nat × ℚ) :=
  vecs.enum.map (fun p => (p.1, dot p.2 q))

/-- Embedding of `faiss.IndexFlatIP.search` on one query row: exact search,
the top `k` pairs by descending score (ties by ascending position).  The FAISS
Python wrapper asserts `k > 0`, modelled by the error branch. -/
def index_search (vecs : List Vec) (q : Vec) (k : Int) :
    Except String (List (Nat × ℚ)) :=
  if k ≤ 0 then .error "assertion failed: k must be positive"
  else .ok (((scoreAll vecs q).mergeSort candidateLE).take k.toNat)

/-- The query embedding step of `similarity_search` (lines 110-111): embed the
query as a one-element batch, normalize, take row 0. -/
def queryVec (emb : Emb) (query : String) : Except String Vec :=
  match emb [query] with
  | .error e => .error (embedFailMsg e)
  | .ok qembs =>
    match qembs.map normalize_L2 with
    | [] => .error "query embedding batch is empty"
    | q :: _ => .ok q

/-- The candidate list produced by line 114 of `similarity_search`:
`self.index.search(query_embedding, min(k, self.index.ntotal))`. -/
def searchCands (emb : Emb) (store : VectorStore) (query : String) (k : Int) :
    Except String (List (Nat × ℚ)) :=
  match queryVec emb query with
  | .error e => .error e
  | .ok q =>
    if q.length = store.embedding_dimension then
      index_search store.index q (min k (store.index.length : Int))
    else .error "query dimension does not match index dimension"

/-- The stored metadata record with the `score` key added (lines 119-120). -/
def DocMeta.withScore (m : DocMeta) (s : ℚ) : SearchResult :=
  { source := m.source, chunk_id := m.chunk_id, file_type := m.file_type
    content := m.content, doc_id := m.doc_id, vector_index := m.vector_index
    score := s }

/-- The result-building loop of `similarity_search` (lines 116-121): keep the
candidates whose score meets the threshold (`idx >= 0` always holds here,
since exact search with `k ≤ ntotal` never pads with `-1`), looking each
position up in `self.documents` (an out-of-range position would raise an
`IndexError`, caught and re-raised by the surrounding handler). -/
def buildResults (docs : List DocMeta) (t : ℚ) :
    List (Nat × ℚ) → Except String (List SearchResult)
  | [] => .ok []
  | (idx, score) :: rest =>
    if t ≤ score then
      match docs[idx]? with
      | none => .error "list index out of range"
      | some m => (buildResults docs t rest).map (fun rs => m.withScore score :: rs)
    else buildResults docs t rest

/-- Embedding of `VectorStore.similarity_search` (lines 93-126): empty-index
early return, then query embedding, index search and threshold filtering; any
exception in the `try` block is re-raised wrapped.  The second component is
the list of batches sent to the embedding service during the call. -/
def similarity_search (emb : Emb) (store : VectorStore) (query : String)
    (k : Int) (score_threshold : ℚ) :
    Except String (List SearchResult) × List (List String) :=
  if store.index.length = 0 then (.ok [], [])
  else
    match searchCands emb store query k with
    | .error e => (.error (searchFailMsg e), [[query]])
    | .ok cands =>
      match buildResults store.documents score_threshold cands with
      | .error e => (.error (searchFailMsg e), [[query]])
      | .ok results => (.ok results, [[query]])

/-- The dict returned by `get_statistics` (lines 128-141).  The Python
`unique_sources` set is modelled as a first-occurrence deduplicated list. -/
structure CorpusStatistics where
  total_documents : Nat
  total_chunks : Nat
  index_size : Nat
  embedding_dimension : Nat
  sources : List String
deriving DecidableEq

/-- Embedding of `VectorStore.get_statistics`. -/
def get_statistics (store : VectorStore) : CorpusStatistics :=
  let unique_sources := (store.documents.map (fun d => d.source.getD "Unknown")).dedup
  { total_documents := unique_sources.length
    total_chunks := store.documents.length
    index_size := store.index.length
    embedding_dimension := store.embedding_dimension
    sources := unique_sources }

/-- Embedding of `VectorStore.get_document_by_source` (lines 149-151). -/
def get_document_by_source (store : VectorStore) (source : String) : List DocMeta :=
  store.documents.filter (fun d => d.source = some source)

/-- Well-formedness of a store state: the FAISS index and the metadata list
have the same length (lockstep) and the document counter agrees with them;
equal lengths make the position-to-`(vector, metadata)`-pair mapping a
bijection. -/
def WellFormed (store : VectorStore) : Prop :=
  store.documents.length = store.index.length ∧
  store.document_count = store.documents.length

instance (store : VectorStore) : Decidable (WellFormed store) :=
  inferInstanceAs (Decidable (store.documents.length = store.index.length ∧
    store.document_count = store.documents.length))

/-- One mutating call on a `VectorStore`, with the embedding-service behaviour
seen by that call. -/
inductive StoreOp where
  | add (emb : Emb) (docs : List Document)
  | clear

/-- Execute one call: the Python object keeps its (unchanged) state when the
call raises. -/
def runOp (store : VectorStore) : StoreOp → VectorStore
  | .add emb docs => (add_documents emb store docs).1
  | .clear => store.clear

/-- Execute a sequence of `add_documents` / `clear` calls. -/
def runOps (store : VectorStore) (ops : List StoreOp) : VectorStore :=
  ops.foldl runOp store

/-- The embedding-service contract (spec section 4.1, and the OpenAI API
guarantee): a successful batch holds one vector per input text. -/
def CountCorrect (emb : Emb) : Prop :=
  ∀ ts vs, emb ts = .ok vs → vs.length = ts.length

/-- Every `add` call in the sequence saw a count-correct embedding service. -/
def OpsCountCorrect (ops : List StoreOp) : Prop :=
  ∀ op ∈ ops, ∀ emb docs, op = StoreOp.add emb docs → CountCorrect emb

/-! ## RAG pipeline (`rag_pipeline.py`) -/

/-- The external chat-completion service: system prompt and user prompt in,
answer text (or an exception) out. -/
abbrev LLM := String → String → Except String String

/-- One entry of the `sources` list built by `_format_sources`
(lines 150-164). -/
structure SourceInfo where
  document : String
  content : String
  score : ℚ
  chunk_id : Nat
  file_type : String
deriving DecidableEq

/-- The dict returned by `get_response`: `answer` and `sources` always
present, `context_used` only on the successful path. -/
structure RAGResponse where
  answer : String
  sources : List SourceInfo
  context_used : Option Nat
deriving DecidableEq

/-- The fixed fallback answer of `get_response` (lines 42-46). -/
def no_docs_answer : String :=
  "I couldn\x27t find relevant information in the uploaded documents to answer your question. Please ensure you\x27ve uploaded the appropriate regulatory documents or try rephrasing your question."

/-- The catch-all answer of `get_response` (lines 82-86). -/
def error_answer (e : String) : String :=
  "I encountered an error while processing your question: " ++ e ++
    ". Please try again or contact support if the issue persists."

/-- Stand-in for the Python float formatting `%.2f` used in the context
header; the exact rendering of a score is irrelevant to every claim. -/
def ratStr (q : ℚ) : String := toString q.num ++ "/" ++ toString q.den

/-- Embedding of `RAGPipeline._prepare_context` (lines 88-101). -/
def prepare_context (documents : List SearchResult) : String :=
  String.intercalate "\n" (documents.enum.map (fun p =>
    "[Source " ++ toString (p.1 + 1) ++ ": " ++ p.2.source.getD "Unknown Document" ++
      " (Relevance: " ++ ratStr p.2.score ++ ")]\n" ++ p.2.content ++ "\n"))

/-- Embedding of `RAGPipeline._get_system_prompt` (lines 103-126); the role
texts are abbreviated, their content is never inspected by a theorem. -/
def get_system_prompt (user_role : String) : String :=
  let base_prompt := "You are an expert regulatory compliance assistant. Your role is to provide accurate, helpful, and context-aware responses based on the regulatory documents provided. Always cite your sources and be transparent about the limitations of your knowledge."
  let role_part :=
    if user_role = "Compliance Analyst" then
      "\nYou are responding to a Compliance Analyst. Provide detailed, technical responses.\n"
    else if user_role = "Relationship Manager" then
      "\nYou are responding to a Relationship Manager. Provide clear, business-focused responses.\n"
    else ""
  base_prompt ++ role_part

/-- Embedding of `RAGPipeline._create_role_specific_prompt` (lines 128-148). -/
def create_role_specific_prompt (query context user_role : String) : String :=
  "\nBased on the following regulatory documents and context, please answer the user\x27s question.\n\nCONTEXT FROM REGULATORY DOCUMENTS:\n" ++
    context ++ "\n\nUSER QUESTION: " ++ query ++
    "\n\nRESPONSE REQUIREMENTS:\n1. Provide a comprehensive answer based on the provided context\n2. Always cite specific sources from the context when making claims\n3. If the context doesn\x27t fully answer the question, clearly state what information is missing\n4. Tailor your response to a " ++
    user_role ++
    " audience\n5. Include relevant warnings or disclaimers about regulatory compliance\n6. If applicable, mention related regulations or considerations\n\nPlease provide your response:\n"

/-- Embedding of `RAGPipeline._format_sources` (lines 150-164). -/
def format_sources (documents : List SearchResult) : List SourceInfo :=
  documents.map (fun doc =>
    { document := doc.source.getD "Unknown Document"
      content :=
        if doc.content.length > 500 then doc.content.take 500 ++ "..."
        else doc.content
      score := doc.score
      chunk_id := doc.chunk_id.getD 0
      file_type := doc.file_type.getD "unknown" })

/-- Embedding of `RAGPipeline.get_response` (lines 26-86): retrieval with the
default threshold 0.7, fixed fallback on empty retrieval, catch-all on any
exception.  The second component records whether the chat-completion service
was invoked. -/
def get_response (emb : Emb) (llm : LLM) (store : VectorStore)
    (query : String) (user_role : String) (k : Int) : RAGResponse × Bool :=
  match (similarity_search emb store query k (7/10)).1 with
  | .error e =>
    ({ answer := error_answer e, sources := [], context_used := none }, false)
  | .ok relevant_docs =>
    if relevant_docs.isEmpty then
      ({ answer := no_docs_answer, sources := [], context_used := none }, false)
    else
      let context := prepare_context relevant_docs
      let prompt := create_role_specific_prompt query context user_role
      match llm (get_system_prompt user_role) prompt with
      | .error e =>
        ({ answer := error_answer e, sources := [], context_used := none }, true)
      | .ok answer =>
        ({ answer := answer, sources := format_sources relevant_docs
           context_used := some relevant_docs.length }, true)

/-! Concrete fixtures used by witness theorems. -/

def mWA : DocMeta :=
  { source := some "docA", chunk_id := some 0, file_type := some "txt"
    content := "a", doc_id := 0, vector_index := 0 }

def mWB : DocMeta :=
  { source := some "docB", chunk_id := some 1, file_type := some "txt"
    content := "b", doc_id := 1, vector_index := 1 }

def sOne : VectorStore :=
  { embedding_dimension := 2, index := [[1, 0]], documents := [mWA]
    document_count := 1 }

def sTwo : VectorStore :=
  { embedding_dimension := 2, index := [[1, 0], [0, 1]], documents := [mWA, mWB]
    document_count := 2 }

def sTie : VectorStore :=
  { embedding_dimension := 2, index := [[1, 0], [1, 0]], documents := [mWA, mWB]
    document_count := 2 }

def docW : Document :=
  { page_content := "w", source := some "docA", chunk_id := some 0
    file_type := some "txt" }

def docZ : Document :=
  { page_content := "z", source := some "docA", chunk_id := some 0
    file_type := some "txt" }

def embDown : Emb := fun _ => .error "service down"

def embUnit : Emb := fun _ => .ok [[1, 0]]

def embZero : Emb := fun _ => .ok [[0, 0]]

def embConst : Emb := fun ts => .ok (ts.map (fun _ => [1, 0]))

def opsW : List StoreOp :=
  [.add embConst [docW], .clear, .add embConst [docW, docZ]]

/-! ## Theorems -/

/-- C5: for every query string and every `k` and threshold, calling
`similarity_search` on a `VectorStore` whose index size is 0 (in particular a
freshly constructed or freshly cleared one) returns an empty sequence, raises
no error, and makes no external embedding call (the trace of embedding
batches is empty). -/
theorem similarity_search_empty_store (emb : Emb) (store : VectorStore)
    (query : String) (k : Int) (t : ℚ) (h : store.index.length = 0) :
    similarity_search emb store query k t = (.ok [], []) := by
  simp [similarity_search, h]

theorem similarity_search_empty_store_witness :
    (VectorStore.init 1536).index.length = 0 ∧
    (VectorStore.clear ⟨2, [[1, 0]], [], 5⟩).index.length = 0 ∧
    similarity_search (fun _ => .error "service down") (VectorStore.init 1536)
      "q" 5 (7/10) = (.ok [], []) ∧
    similarity_search (fun _ => .error "service down")
      (VectorStore.clear ⟨2, [[1, 0]], [], 5⟩) "" 0 (7/10) = (.ok [], []) :=
  ⟨by decide, by decide,
    similarity_search_empty_store _ _ _ _ _ (by decide),
    similarity_search_empty_store _ _ _ _ _ (by decide)⟩

/-- C9: calling `add_documents` with an empty sequence is a no-op, not an
error: it returns without raising, makes no embedding call, leaves the whole
state (index, metadata list, document counter) unchanged, and therefore also
the statistics (in particular `total_chunks`). -/
theorem add_documents_empty_noop (emb : Emb) (store : VectorStore) :
    add_documents emb store [] = (store, none, []) ∧
    get_statistics (add_documents emb store []).1 = get_statistics store := by
  simp [add_documents]

/-- C4: whenever `add_documents` raises (for any reason, in particular an
embedding-service failure), the store state after the call is exactly the
state before the call: atomic-or-nothing. -/
theorem add_documents_atomic (emb : Emb) (store : VectorStore)
    (docs : List Document) (h : (add_documents emb store docs).2.1 ≠ none) :
    (add_documents emb store docs).1 = store := by
  unfold add_documents at h ⊢
  by_cases hd : docs.isEmpty
  · simp [hd] at h
  · simp only [hd, Bool.false_eq_true, if_false] at h ⊢
    cases hemb : emb (docs.map (fun d => d.page_content)) with
    | error e => simp [hemb]
    | ok raw =>
      simp only [hemb] at h ⊢
      by_cases hall : (raw.map normalize_L2).all
          (fun v => v.length = store.embedding_dimension)
      · simp [hall] at h
      · simp [hall]

theorem add_documents_atomic_witness :
    ((add_documents (fun _ => .error "service down") (VectorStore.init 2)
        [{ page_content := "w", source := some "docA", chunk_id := some 0,
           file_type := some "txt" }]).2.1 ≠ none) ∧
    (add_documents (fun _ => .error "service down") (VectorStore.init 2)
        [{ page_content := "w", source := some "docA", chunk_id := some 0,
           file_type := some "txt" }]).1 = VectorStore.init 2 :=
  ⟨by decide, add_documents_atomic _ _ _ (by decide)⟩

/-- C10: `get_response` is total at its public interface: for every query,
role and `k` it returns a record with `answer` and `sources` and never
propagates an exception.  When retrieval yields no results it returns the
fixed fallback answer with an empty sources list without invoking the
language model; when retrieval raises it returns the error-text answer with
an empty sources list (model not invoked); when the model call itself raises
it returns the error-text answer with an empty sources list; otherwise it
returns the model answer with the formatted sources. -/
theorem get_response_total (emb : Emb) (llm : LLM) (store : VectorStore)
    (query user_role : String) (k : Int) :
    ((similarity_search emb store query k (7/10)).1 = .ok [] →
      get_response emb llm store query user_role k =
        ({ answer := no_docs_answer, sources := [], context_used := none }, false)) ∧
    (∀ e, (similarity_search emb store query k (7/10)).1 = .error e →
      get_response emb llm store query user_role k =
        ({ answer := error_answer e, sources := [], context_used := none }, false)) ∧
    (∀ docs, (similarity_search emb store query k (7/10)).1 = .ok docs → docs ≠ [] →
      (∀ e, llm (get_system_prompt user_role)
          (create_role_specific_prompt query (prepare_context docs) user_role) =
            .error e →
        get_response emb llm store query user_role k =
          ({ answer := error_answer e, sources := [], context_used := none }, true)) ∧
      (∀ ans, llm (get_system_prompt user_role)
          (create_role_specific_prompt query (prepare_context docs) user_role) =
            .ok ans →
        get_response emb llm store query user_role k =
          ({ answer := ans, sources := format_sources docs,
             context_used := some docs.length }, true))) := by
  refine ⟨fun h => by simp [get_response, h], fun e h => by simp [get_response, h],
    fun docs h hne => ⟨fun e hl => ?_, fun ans hl => ?_⟩⟩
  · simp [get_response, h, hl, List.isEmpty_iff, hne]
  · simp [get_response, h, hl, List.isEmpty_iff, hne]

/-- `faiss.normalize_L2` preserves the number of components of a vector. -/
theorem normalize_L2_length (v : Vec) : (normalize_L2 v).length = v.length := by
  unfold normalize_L2; split <;> simp

/-- C8: `clear` is idempotent — clearing twice yields the same state, hence
the same statistics, as clearing once; the statistics of a cleared store are
all zero/empty; and the identifiers assigned by a successful `add_documents`
on a cleared store restart at 0: the record at position `i` carries
`doc_id = i` (counter reset to 0) and `vector_index = i + i` (0, 2, 4, ...,
restarting at 0; line 84 evaluates `len(self.documents)` inside the loop). -/
theorem clear_idempotent (s : VectorStore) :
    s.clear.clear = s.clear ∧
    get_statistics s.clear =
      { total_documents := 0, total_chunks := 0, index_size := 0,
        embedding_dimension := s.embedding_dimension, sources := [] } ∧
    (∀ emb docs s' tr, add_documents emb s.clear docs = (s', none, tr) →
      ∀ p ∈ s'.documents.enum, p.2.doc_id = p.1 ∧ p.2.vector_index = p.1 + p.1) := by
  refine ⟨rfl, by simp [get_statistics, VectorStore.clear], ?_⟩
  intro emb docs s' tr h p hp
  obtain ⟨i, m⟩ := p
  unfold add_documents at h
  by_cases hd : docs.isEmpty
  · simp only [hd, if_true, Prod.mk.injEq] at h
    obtain ⟨rfl, -, -⟩ := h
    simp [VectorStore.clear] at hp
  · simp only [hd, Bool.false_eq_true, if_false] at h
    cases hemb : emb (docs.map (fun d => d.page_content)) with
    | error e =>
      rw [hemb] at h
      simp only [Prod.mk.injEq] at h
      exact absurd h.2.1 (by simp)
    | ok raw =>
      rw [hemb] at h
      by_cases hall : (raw.map normalize_L2).all
          (fun v => v.length = s.clear.embedding_dimension)
      · simp only [hall, if_true, Prod.mk.injEq] at h
        obtain ⟨rfl, -, -⟩ := h
        simp only [VectorStore.clear, List.nil_append] at hp
        rw [List.mem_enum_iff_getElem?, List.getElem?_map, List.getElem?_enum] at hp
        cases hget : docs[(i, m).1]? with
        | none => rw [hget] at hp; cases hp
        | some d =>
          rw [hget] at hp
          simp only [Option.map_map, Option.map_some', Option.some.injEq] at hp
          rw [← hp]
          simp [Document.toMeta]
      · simp only [hall, Bool.false_eq_true, if_false, Prod.mk.injEq] at h
        exact absurd h.2.1 (by simp)

theorem clear_idempotent_witness :
    add_documents embConst (VectorStore.clear ⟨2, [[1, 0], [0, 1]], [], 7⟩)
        [docW, docZ] =
      (⟨2, [[1, 0], [1, 0]], [docW.toMeta 0 0, docZ.toMeta 1 2], 2⟩,
        none, [["w", "z"]]) ∧
    (∀ p ∈ ((⟨2, [[1, 0], [1, 0]], [docW.toMeta 0 0, docZ.toMeta 1 2], 2⟩ :
        VectorStore)).documents.enum,
      p.2.doc_id = p.1 ∧ p.2.vector_index = p.1 + p.1) := by
  have hadd : add_documents embConst
      (VectorStore.clear ⟨2, [[1, 0], [0, 1]], [], 7⟩) [docW, docZ] =
      (⟨2, [[1, 0], [1, 0]], [docW.toMeta 0 0, docZ.toMeta 1 2], 2⟩,
        none, [["w", "z"]]) := by
    simp [add_documents, VectorStore.clear, embConst, docW, docZ, normalize_L2,
      sqNorm, Document.toMeta, List.enum, List.enumFrom]
  exact ⟨hadd, (clear_idempotent ⟨2, [[1, 0], [0, 1]], [], 7⟩).2.2 _ _ _ _ hadd⟩

/-- C6 counterexample: an embedding step that produces the zero vector is not
rejected — `add_documents` raises nothing (no `DegenerateVectorError` exists
anywhere in the code) and the zero vector is appended to the index as-is, so
the call mutates the store instead of aborting. -/
theorem degenerate_vector_counterexample :
    (add_documents embZero (VectorStore.init 2) [docZ]).2.1 = none ∧
    (add_documents embZero (VectorStore.init 2) [docZ]).1.index = [[0, 0]] := by
  refine ⟨?_, ?_⟩
  all_goals simp [add_documents, embZero, docZ, VectorStore.init, normalize_L2, sqNorm]

/-- C6 amended: zero-norm vectors are accepted, not rejected: normalization
leaves a zero-norm vector unchanged (the FAISS guard `if (nr > 0)`), and an
`add_documents` call whose embedding batch succeeds with vectors of the index
dimension — zero-norm or not — raises nothing and appends the (normalized)
vectors, the zero vector included unchanged. -/
theorem degenerate_vector_accepted (emb : Emb) (store : VectorStore)
    (docs : List Document) (vecs : List Vec)
    (hemb : emb (docs.map (fun d => d.page_content)) = .ok vecs)
    (hdim : ∀ v ∈ vecs, v.length = store.embedding_dimension)
    (hne : docs ≠ []) :
    (∀ v, sqNorm v = 0 → normalize_L2 v = v) ∧
    (add_documents emb store docs).2.1 = none ∧
    (add_documents emb store docs).1.index =
      store.index ++ vecs.map normalize_L2 := by
  have hall : (vecs.map normalize_L2).all
      (fun v => v.length = store.embedding_dimension) = true := by
    rw [List.all_eq_true]
    intro v hv
    rw [List.mem_map] at hv
    obtain ⟨w, hw, rfl⟩ := hv
    simp [normalize_L2_length, hdim w hw]
  have hd : docs.isEmpty = false := by simpa [List.isEmpty_iff] using hne
  refine ⟨fun v hv => by simp [normalize_L2, hv], ?_, ?_⟩ <;>
    simp [add_documents, hd, hemb, hall]

theorem degenerate_vector_accepted_witness :
    embZero ([docZ].map (fun d => d.page_content)) = .ok [[0, 0]] ∧
    ((∀ v, sqNorm v = 0 → normalize_L2 v = v) ∧
      (add_documents embZero (VectorStore.init 2) [docZ]).2.1 = none ∧
      (add_documents embZero (VectorStore.init 2) [docZ]).1.index =
        (VectorStore.init 2).index ++ [[0, 0]].map normalize_L2) :=
  ⟨rfl, degenerate_vector_accepted embZero (VectorStore.init 2) [docZ] [[0, 0]]
    rfl (by decide) (by decide)⟩

/-- C7 counterexample: no synchronous input validation happens.  On a
non-empty store, `similarity_search` with an empty query string sends the
empty query to the external embedding service (the call trace is non-empty),
and `similarity_search` with `k = 0` likewise makes the external embedding
call first and only afterwards fails inside the index search — neither input
is rejected before the external call. -/
theorem no_input_validation_counterexample :
    (similarity_search embDown sOne "" 5 (7/10)).2 = [[""]] ∧
    (similarity_search embUnit sOne "q" 0 (7/10)).2 = [["q"]] ∧
    (similarity_search embUnit sOne "q" 0 (7/10)).1 =
      .error (searchFailMsg "assertion failed: k must be positive") := by
  refine ⟨rfl, ?_, ?_⟩
  all_goals simp [similarity_search, searchCands, queryVec, index_search,
    embUnit, sOne, normalize_L2, sqNorm]

/-- C7 amended: `similarity_search` performs no input validation.  On any
non-empty store the external embedding call is always made — for an empty
query and for `k ≤ 0` alike — and a `k ≤ 0` then fails afterwards, inside
the FAISS search step, surfacing as a wrapped search error rather than a
synchronous validation error. -/
theorem no_input_validation (emb : Emb) (store : VectorStore) (query : String)
    (k : Int) (t : ℚ) (h : store.index.length ≠ 0) :
    (similarity_search emb store query k t).2 = [[query]] ∧
    (k ≤ 0 → ∃ e, (similarity_search emb store query k t).1 = .error e) := by
  constructor
  · unfold similarity_search
    simp only [h, if_false]
    cases hsc : searchCands emb store query k with
    | error e => rfl
    | ok cands =>
      cases hb : buildResults store.documents t cands with
      | error e => simp [hb]
      | ok rs => simp [hb]
  · intro hk
    have hcands : ∃ e, searchCands emb store query k = .error e := by
      unfold searchCands
      cases hq : queryVec emb query with
      | error e => exact ⟨e, rfl⟩
      | ok q =>
        by_cases hdim : q.length = store.embedding_dimension
        · refine ⟨"assertion failed: k must be positive", ?_⟩
          have hmin : min k (store.index.length : Int) ≤ 0 :=
            le_trans (min_le_left _ _) hk
          simp [hdim, index_search, hmin]
        · exact ⟨"query dimension does not match index dimension", by simp [hdim]⟩
    obtain ⟨e, he⟩ := hcands
    refine ⟨searchFailMsg e, ?_⟩
    unfold similarity_search
    simp [h, he]

theorem no_input_validation_witness :
    sOne.index.length ≠ 0 ∧
    (similarity_search embDown sOne "" (-3) (7/10)).2 = [[""]] ∧
    ((-3 : Int) ≤ 0 → ∃ e,
      (similarity_search embDown sOne "" (-3) (7/10)).1 = .error e) :=
  ⟨by decide,
    (no_input_validation embDown sOne "" (-3) (7/10) (by decide)).1,
    fun hk => (no_input_validation embDown sOne "" (-3) (7/10) (by decide)).2 hk⟩

/-- `add_documents` preserves well-formedness whenever the embedding service
returns one vector per input text (the OpenAI API contract; spec section
4.1 requires the Embedder to fail on a mismatched count). -/
theorem wellFormed_add (emb : Emb) (docs : List Document) (s : VectorStore)
    (hcc : CountCorrect emb) (hwf : WellFormed s) :
    WellFormed (add_documents emb s docs).1 := by
  unfold add_documents
  by_cases hd : docs.isEmpty
  · simpa [hd]
  · simp only [hd, Bool.false_eq_true, if_false]
    cases hemb : emb (docs.map (fun d => d.page_content)) with
    | error e => simpa
    | ok raw =>
      by_cases hall : (raw.map normalize_L2).all
          (fun v => v.length = s.embedding_dimension)
      · simp only [hall, if_true]
        obtain ⟨h1, h2⟩ := hwf
        have hraw : raw.length = docs.length := by
          have := hcc _ _ hemb; simpa using this
        exact ⟨by simp [h1, hraw], by simp [h2]⟩
      · simpa [hall]

/-- `clear` always yields a well-formed state. -/
theorem wellFormed_clear (s : VectorStore) : WellFormed s.clear :=
  ⟨rfl, rfl⟩

/-- Any sequence of calls starting from a well-formed state keeps the store
well-formed. -/
theorem runOps_wellFormed (ops : List StoreOp) :
    OpsCountCorrect ops → ∀ s, WellFormed s → WellFormed (runOps s ops) := by
  induction ops with
  | nil => exact fun _ _ hs => hs
  | cons op tl ih =>
    intro h s hs
    refine ih (fun o hm emb docs he => h o (List.mem_cons_of_mem _ hm) emb docs he)
      (runOp s op) ?_
    cases op with
    | add emb docs =>
      exact wellFormed_add emb docs s (h _ (List.mem_cons_self _ _) emb docs rfl) hs
    | clear => exact wellFormed_clear s

/-- C3: after every sequence of `add_documents` calls (with `clear` calls
interleaved arbitrarily) on a fresh store, and given the embedding-service
contract of one vector per text, the FAISS index size equals the metadata
list size and the document counter agrees; consequently each position holds a
vector exactly when it holds a metadata record, so positions map bijectively
to `(vector, metadata)` pairs. -/
theorem lockstep_invariant (dim : Nat) (ops : List StoreOp)
    (h : OpsCountCorrect ops) :
    WellFormed (runOps (VectorStore.init dim) ops) ∧
    ∀ pos : Nat,
      ((∃ v, (runOps (VectorStore.init dim) ops).index[pos]? = some v) ↔
        (∃ m, (runOps (VectorStore.init dim) ops).documents[pos]? = some m)) := by
  have hwf : WellFormed (runOps (VectorStore.init dim) ops) :=
    runOps_wellFormed ops h _ ⟨rfl, rfl⟩
  refine ⟨hwf, fun pos => ⟨?_, ?_⟩⟩
  · rintro ⟨v, hv⟩
    have hlt : pos < (runOps (VectorStore.init dim) ops).index.length :=
      (List.getElem?_eq_some.1 hv).1
    rw [← hwf.1] at hlt
    exact ⟨_, List.getElem?_eq_getElem hlt⟩
  · rintro ⟨m, hm⟩
    have hlt : pos < (runOps (VectorStore.init dim) ops).documents.length :=
      (List.getElem?_eq_some.1 hm).1
    rw [hwf.1] at hlt
    exact ⟨_, List.getElem?_eq_getElem hlt⟩

theorem lockstep_invariant_witness :
    OpsCountCorrect opsW ∧
    (WellFormed (runOps (VectorStore.init 2) opsW) ∧
      ∀ pos : Nat,
        ((∃ v, (runOps (VectorStore.init 2) opsW).index[pos]? = some v) ↔
          (∃ m, (runOps (VectorStore.init 2) opsW).documents[pos]? = some m))) := by
  have hcc : CountCorrect embConst := by
    intro ts vs h
    simp only [embConst, Except.ok.injEq] at h
    rw [← h]; simp
  have hops : OpsCountCorrect opsW := by
    intro op hop emb docs he
    simp only [opsW, List.mem_cons, List.not_mem_nil, or_false] at hop
    rcases hop with rfl | rfl | rfl
    · cases he; exact hcc
    · cases he
    · cases he; exact hcc
  exact ⟨hops, lockstep_invariant 2 opsW hops⟩

theorem candidateLE_trans (a b c : Nat × ℚ) (hab : candidateLE a b = true)
    (hbc : candidateLE b c = true) : candidateLE a c = true := by
  simp only [candidateLE, decide_eq_true_eq] at hab hbc ⊢
  rcases hab with h1 | ⟨h1, h2⟩ <;> rcases hbc with h3 | ⟨h3, h4⟩
  · exact Or.inl (lt_trans h3 h1)
  · exact Or.inl (h3 ▸ h1)
  · exact Or.inl (by rw [h1]; exact h3)
  · exact Or.inr ⟨h1.trans h3, le_trans h2 h4⟩

/-- The FAISS tie-breaking comparator is total. -/
theorem candidateLE_total (a b : Nat × ℚ) :
    (candidateLE a b || candidateLE b a) = true := by
  simp only [candidateLE, Bool.or_eq_true, decide_eq_true_eq]
  rcases lt_trichotomy a.2 b.2 with h | h | h
  · exact Or.inr (Or.inl h)
  · rcases le_total a.1 b.1 with h1 | h1
    · exact Or.inl (Or.inr ⟨h, h1⟩)
    · exact Or.inr (Or.inr ⟨h.symm, h1⟩)
  · exact Or.inl (Or.inl h)

/-- Every result of a successful result-building pass meets the threshold. -/
theorem buildResults_ok_score (docs : List DocMeta) (t : ℚ) :
    ∀ cands rs, buildResults docs t cands = .ok rs → ∀ r ∈ rs, t ≤ r.score := by
  intro cands
  induction cands with
  | nil =>
    intro rs h
    simp only [buildResults, Except.ok.injEq] at h
    subst h
    intro r hr
    cases hr
  | cons c tl ih =>
    obtain ⟨idx, sc⟩ := c
    intro rs h
    simp only [buildResults] at h
    by_cases ht : t ≤ sc
    · simp only [ht, if_true] at h
      cases hget : docs[idx]? with
      | none => rw [hget] at h; cases h
      | some m =>
        rw [hget] at h
        cases hb : buildResults docs t tl with
        | error e => rw [hb] at h; simp [Except.map] at h
        | ok rs' =>
          rw [hb] at h
          simp only [Except.map, Except.ok.injEq] at h
          subst h
          intro r hr
          rcases List.mem_cons.1 hr with rfl | hr'
          · simpa [DocMeta.withScore] using ht
          · exact ih rs' hb r hr'
    · simp only [ht, if_false] at h
      exact ih rs h

/-- Every candidate meeting the threshold contributes a result. -/
theorem buildResults_ok_mem (docs : List DocMeta) (t : ℚ) :
    ∀ cands rs, buildResults docs t cands = .ok rs →
      ∀ idx s, (idx, s) ∈ cands → t ≤ s →
        ∃ m, docs[idx]? = some m ∧ m.withScore s ∈ rs := by
  intro cands
  induction cands with
  | nil => intro rs h idx s hs; cases hs
  | cons c tl ih =>
    obtain ⟨j, u⟩ := c
    intro rs h idx s hs hts
    simp only [buildResults] at h
    by_cases ht : t ≤ u
    · simp only [ht, if_true] at h
      cases hget : docs[j]? with
      | none => rw [hget] at h; cases h
      | some m =>
        rw [hget] at h
        cases hb : buildResults docs t tl with
        | error e => rw [hb] at h; simp [Except.map] at h
        | ok rs' =>
          rw [hb] at h
          simp only [Except.map, Except.ok.injEq] at h
          subst h
          rcases List.mem_cons.1 hs with heq | hs'
          · obtain ⟨rfl, rfl⟩ := Prod.mk.inj heq
            exact ⟨m, hget, List.mem_cons_self _ _⟩
          · obtain ⟨m', hget', hmem⟩ := ih rs' hb idx s hs' hts
            exact ⟨m', hget', List.mem_cons_of_mem _ hmem⟩
    · simp only [ht, if_false] at h
      rcases List.mem_cons.1 hs with heq | hs'
      · obtain ⟨rfl, rfl⟩ := Prod.mk.inj heq
        exact absurd hts ht
      · exact ih rs h idx s hs' hts

/-- Every result originates from some candidate at or above the threshold. -/
theorem buildResults_ok_origin (docs : List DocMeta) (t : ℚ) :
    ∀ cands rs, buildResults docs t cands = .ok rs →
      ∀ r ∈ rs, ∃ idx s m, (idx, s) ∈ cands ∧ docs[idx]? = some m ∧
        r = m.withScore s := by
  intro cands
  induction cands with
  | nil =>
    intro rs h
    simp only [buildResults, Except.ok.injEq] at h
    subst h
    intro r hr
    cases hr
  | cons c tl ih =>
    obtain ⟨j, u⟩ := c
    intro rs h r hr
    simp only [buildResults] at h
    by_cases ht : t ≤ u
    · simp only [ht, if_true] at h
      cases hget : docs[j]? with
      | none => rw [hget] at h; cases h
      | some m =>
        rw [hget] at h
        cases hb : buildResults docs t tl with
        | error e => rw [hb] at h; simp [Except.map] at h
        | ok rs' =>
          rw [hb] at h
          simp only [Except.map, Except.ok.injEq] at h
          subst h
          rcases List.mem_cons.1 hr with rfl | hr'
          · exact ⟨j, u, m, List.mem_cons_self _ _, hget, rfl⟩
          · obtain ⟨idx, s, m', hmem, hget', rfl⟩ := ih rs' hb r hr'
            exact ⟨idx, s, m', List.mem_cons_of_mem _ hmem, hget', rfl⟩
    · simp only [ht, if_false] at h
      obtain ⟨idx, s, m', hmem, hget', rfl⟩ := ih rs h r hr
      exact ⟨idx, s, m', List.mem_cons_of_mem _ hmem, hget', rfl⟩

/-- Threshold filtering never lengthens the candidate list. -/
theorem buildResults_ok_length (docs : List DocMeta) (t : ℚ) :
    ∀ cands rs, buildResults docs t cands = .ok rs → rs.length ≤ cands.length := by
  intro cands
  induction cands with
  | nil =>
    intro rs h
    simp only [buildResults, Except.ok.injEq] at h
    subst h
    exact le_refl _
  | cons c tl ih =>
    obtain ⟨j, u⟩ := c
    intro rs h
    simp only [buildResults] at h
    by_cases ht : t ≤ u
    · simp only [ht, if_true] at h
      cases hget : docs[j]? with
      | none => rw [hget] at h; cases h
      | some m =>
        rw [hget] at h
        cases hb : buildResults docs t tl with
        | error e => rw [hb] at h; simp [Except.map] at h
        | ok rs' =>
          rw [hb] at h
          simp only [Except.map, Except.ok.injEq] at h
          subst h
          simpa using ih rs' hb
    · simp only [ht, if_false] at h
      exact le_trans (ih rs h) (Nat.le_succ _)

/-- Result building transfers a non-increasing score ordering from the
candidates to the results. -/
theorem buildResults_ok_pairwise_score (docs : List DocMeta) (t : ℚ) :
    ∀ cands rs, buildResults docs t cands = .ok rs →
      cands.Pairwise (fun a b => b.2 ≤ a.2) →
      rs.Pairwise (fun a b => b.score ≤ a.score) := by
  intro cands
  induction cands with
  | nil =>
    intro rs h _
    simp only [buildResults, Except.ok.injEq] at h
    subst h
    exact List.Pairwise.nil
  | cons c tl ih =>
    obtain ⟨j, u⟩ := c
    intro rs h hp
    simp only [buildResults] at h
    have hptl := List.pairwise_cons.1 hp
    by_cases ht : t ≤ u
    · simp only [ht, if_true] at h
      cases hget : docs[j]? with
      | none => rw [hget] at h; cases h
      | some m =>
        rw [hget] at h
        cases hb : buildResults docs t tl with
        | error e => rw [hb] at h; simp [Except.map] at h
        | ok rs' =>
          rw [hb] at h
          simp only [Except.map, Except.ok.injEq] at h
          subst h
          refine List.pairwise_cons.2 ⟨?_, ih rs' hb hptl.2⟩
          intro r hr
          obtain ⟨idx, sc, m', hmem, hget', rfl⟩ :=
            buildResults_ok_origin docs t tl rs' hb r hr
          have hrel := hptl.1 (idx, sc) hmem
          simpa [DocMeta.withScore] using hrel
    · simp only [ht, if_false] at h
      exact ih rs h hptl.2

/-- The candidate list returned by the flat index is strictly ordered:
descending score, ties by strictly ascending position. -/
theorem cands_pairwise (vecs : List Vec) (q : Vec) (n : Nat) :
    (((scoreAll vecs q).mergeSort candidateLE).take n).Pairwise
      (fun a b => b.2 < a.2 ∨ (a.2 = b.2 ∧ a.1 < b.1)) := by
  have hsorted : ((scoreAll vecs q).mergeSort candidateLE).Pairwise
      (fun a b => candidateLE a b = true) :=
    List.sorted_mergeSort candidateLE_trans candidateLE_total (scoreAll vecs q)
  have hperm := List.mergeSort_perm (scoreAll vecs q) candidateLE
  have hnodupfst : (List.map Prod.fst
      ((scoreAll vecs q).mergeSort candidateLE)).Nodup := by
    have heq : List.map Prod.fst (scoreAll vecs q) = List.map Prod.fst vecs.enum := by
      simp [scoreAll, List.map_map, Function.comp_def]
    have h2 : (List.map Prod.fst (scoreAll vecs q)).Nodup := by
      rw [heq]; exact List.nodup_enum_map_fst _
    exact ((hperm.map Prod.fst).nodup_iff).2 h2
  have hne : ((scoreAll vecs q).mergeSort candidateLE).Pairwise
      (fun a b => a.1 ≠ b.1) := List.pairwise_map.1 hnodupfst
  have hstrict : ((scoreAll vecs q).mergeSort candidateLE).Pairwise
      (fun a b => b.2 < a.2 ∨ (a.2 = b.2 ∧ a.1 < b.1)) := by
    refine (hsorted.and hne).imp ?_
    intro a b hab
    obtain ⟨h1, hneq⟩ := hab
    rw [candidateLE, decide_eq_true_eq] at h1
    rcases h1 with h | ⟨h1, h2⟩
    · exact Or.inl h
    · exact Or.inr ⟨h1, lt_of_le_of_ne h2 hneq⟩
  exact List.Pairwise.sublist (List.take_sublist n _) hstrict

/-- Anatomy of a successful candidate search: the query embedding succeeded
with matching dimension, the clamped `k` is positive, and the candidates are
the first `min(k, ntotal)` entries of the sorted score list. -/
theorem searchCands_ok (emb : Emb) (store : VectorStore) (query : String)
    (k : Int) (cands : List (Nat × ℚ))
    (h : searchCands emb store query k = .ok cands) :
    ∃ q, queryVec emb query = .ok q ∧ q.length = store.embedding_dimension ∧
      ¬ min k (store.index.length : Int) ≤ 0 ∧
      cands = ((scoreAll store.index q).mergeSort candidateLE).take
        (min k (store.index.length : Int)).toNat := by
  unfold searchCands at h
  cases hq : queryVec emb query with
  | error e => simp [hq] at h
  | ok q =>
    simp only [hq] at h
    by_cases hdim : q.length = store.embedding_dimension
    · rw [if_pos hdim] at h
      unfold index_search at h
      by_cases hk : min k (store.index.length : Int) ≤ 0
      · rw [if_pos hk] at h; cases h
      · rw [if_neg hk] at h
        exact ⟨q, rfl, hdim, hk, (Except.ok.inj h).symm⟩
    · rw [if_neg hdim] at h; cases h

/-- C2: every successful `similarity_search` on a non-empty store returns at
most `min(k, ntotal)` results, sorted by non-increasing score; the results
are exactly the threshold filtering, in order, of an index-search candidate
list of `(insertion position, score)` pairs that is sorted by descending
score with equal scores ordered by strictly ascending insertion position. -/
theorem similarity_search_sorted (emb : Emb) (store : VectorStore)
    (query : String) (k : Int) (t : ℚ) (results : List SearchResult)
    (tr : List (List String)) (hne : store.index.length ≠ 0)
    (h : similarity_search emb store query k t = (.ok results, tr)) :
    results.length ≤ (min k (store.index.length : Int)).toNat ∧
    results.Pairwise (fun a b => b.score ≤ a.score) ∧
    ∃ cands, searchCands emb store query k = .ok cands ∧
      cands.Pairwise (fun a b => b.2 < a.2 ∨ (a.2 = b.2 ∧ a.1 < b.1)) ∧
      buildResults store.documents t cands = .ok results := by
  unfold similarity_search at h
  rw [if_neg hne] at h
  cases hsc : searchCands emb store query k with
  | error e => simp only [hsc] at h; exact absurd (Prod.mk.inj h).1 (by simp)
  | ok cands =>
    simp only [hsc] at h
    cases hb : buildResults store.documents t cands with
    | error e => simp only [hb] at h; exact absurd (Prod.mk.inj h).1 (by simp)
    | ok rs =>
      simp only [hb] at h
      have hrs : rs = results := Except.ok.inj (Prod.mk.inj h).1
      subst hrs
      obtain ⟨q, hq, hdim, hk, hc⟩ := searchCands_ok _ _ _ _ _ hsc
      have hstrict : cands.Pairwise
          (fun a b => b.2 < a.2 ∨ (a.2 = b.2 ∧ a.1 < b.1)) := by
        rw [hc]; exact cands_pairwise _ _ _
      refine ⟨?_, ?_, cands, rfl, hstrict, hb⟩
      · refine le_trans (buildResults_ok_length _ _ _ _ hb) ?_
        rw [hc]
        exact List.length_take_le _ _
      · refine buildResults_ok_pairwise_score _ _ _ _ hb (hstrict.imp ?_)
        intro a b hab
        rcases hab with hlt | ⟨heq, -⟩
        · exact le_of_lt hlt
        · exact le_of_eq heq.symm

theorem similarity_search_sorted_witness :
    sTie.index.length ≠ 0 ∧
    similarity_search embUnit sTie "q" 5 0 =
      (.ok [mWA.withScore 1, mWB.withScore 1], [["q"]]) ∧
    ([mWA.withScore 1, mWB.withScore 1].length ≤
        (min 5 (sTie.index.length : Int)).toNat ∧
      [mWA.withScore 1, mWB.withScore 1].Pairwise
        (fun a b => b.score ≤ a.score) ∧
      ∃ cands, searchCands embUnit sTie "q" 5 = .ok cands ∧
        cands.Pairwise (fun a b => b.2 < a.2 ∨ (a.2 = b.2 ∧ a.1 < b.1)) ∧
        buildResults sTie.documents 0 cands =
          .ok [mWA.withScore 1, mWB.withScore 1]) := by
  have hne : sTie.index.length ≠ 0 := by decide
  have hs : similarity_search embUnit sTie "q" 5 0 =
      (.ok [mWA.withScore 1, mWB.withScore 1], [["q"]]) := by
    simp [similarity_search, searchCands, queryVec, index_search, scoreAll,
      buildResults, sTie, embUnit, normalize_L2, sqNorm, dot, List.mergeSort,
      List.merge, candidateLE, DocMeta.withScore, mWA, mWB, List.enum,
      List.enumFrom, Except.map, List.getElem_cons_succ, List.getElem_cons_zero]
    all_goals decide
  exact ⟨hne, hs, similarity_search_sorted embUnit sTie "q" 5 0 _ _ hne hs⟩

/-- C1: on every successful `similarity_search`, every returned result has
score at or above the threshold, and every indexed chunk that is not returned
either fell outside the top `min(k, ntotal)` candidates of the index search
or scored strictly below the threshold. -/
theorem similarity_search_threshold (emb : Emb) (store : VectorStore)
    (query : String) (k : Int) (t : ℚ) (cands : List (Nat × ℚ))
    (results : List SearchResult) (tr : List (List String))
    (hc : searchCands emb store query k = .ok cands)
    (h : similarity_search emb store query k t = (.ok results, tr)) :
    (∀ r ∈ results, t ≤ r.score) ∧
    (∀ pos, pos < store.index.length →
      (∃ s, (pos, s) ∈ cands ∧ ∃ m, store.documents[pos]? = some m ∧
        m.withScore s ∈ results) ∨
      (∀ s, (pos, s) ∉ cands) ∨
      (∃ s, (pos, s) ∈ cands ∧ s < t)) := by
  unfold similarity_search at h
  by_cases hempty : store.index.length = 0
  · rw [if_pos hempty] at h
    have h2 : results = [] := (Except.ok.inj (Prod.mk.inj h).1).symm
    subst h2
    refine ⟨fun r hr => absurd hr (List.not_mem_nil r), fun pos hpos => ?_⟩
    rw [hempty] at hpos
    exact absurd hpos (Nat.not_lt_zero pos)
  · rw [if_neg hempty] at h
    simp only [hc] at h
    cases hb : buildResults store.documents t cands with
    | error e => simp only [hb] at h; exact absurd (Prod.mk.inj h).1 (by simp)
    | ok rs =>
      simp only [hb] at h
      have hrs : rs = results := Except.ok.inj (Prod.mk.inj h).1
      subst hrs
      refine ⟨buildResults_ok_score _ _ _ _ hb, fun pos hpos => ?_⟩
      by_cases hex : ∃ s, (pos, s) ∈ cands
      · obtain ⟨s, hs⟩ := hex
        by_cases hts : t ≤ s
        · exact Or.inl ⟨s, hs, buildResults_ok_mem _ _ _ _ hb pos s hs hts⟩
        · exact Or.inr (Or.inr ⟨s, hs, not_le.1 hts⟩)
      · exact Or.inr (Or.inl (fun s hs => hex ⟨s, hs⟩))

theorem similarity_search_threshold_witness :
    searchCands embUnit sTwo "q" 5 = .ok [(0, 1), (1, 0)] ∧
    similarity_search embUnit sTwo "q" 5 (1/2) =
      (.ok [mWA.withScore 1], [["q"]]) ∧
    ((∀ r ∈ [mWA.withScore 1], (1:ℚ)/2 ≤ r.score) ∧
      (∀ pos, pos < sTwo.index.length →
        (∃ s, (pos, s) ∈ [((0:Nat), (1:ℚ)), (1, 0)] ∧
          ∃ m, sTwo.documents[pos]? = some m ∧
            m.withScore s ∈ [mWA.withScore 1]) ∨
        (∀ s, (pos, s) ∉ [((0:Nat), (1:ℚ)), (1, 0)]) ∨
        (∃ s, (pos, s) ∈ [((0:Nat), (1:ℚ)), (1, 0)] ∧ s < 1/2))) := by
  have hc : searchCands embUnit sTwo "q" 5 = .ok [(0, 1), (1, 0)] := by
    simp [searchCands, queryVec, index_search, scoreAll, sTwo, embUnit,
      normalize_L2, sqNorm, dot, List.mergeSort, List.merge, candidateLE,
      List.enum, List.enumFrom]
  have hs : similarity_search embUnit sTwo "q" 5 (1/2) =
      (.ok [mWA.withScore 1], [["q"]]) := by
    simp [similarity_search, searchCands, queryVec, index_search, scoreAll,
      buildResults, sTwo, embUnit, normalize_L2, sqNorm, dot, List.mergeSort,
      List.merge, candidateLE, DocMeta.withScore, mWA, mWB, List.enum,
      List.enumFrom, Except.map, List.getElem_cons_succ, List.getElem_cons_zero]
    all_goals norm_num
  exact ⟨hc, hs, similarity_search_threshold embUnit sTwo "q" 5 (1/2) _ _ _ hc hs⟩

theorem get_response_total_witness :
    (similarity_search (fun _ => .error "service down") (VectorStore.init 2)
        "q" 5 (7/10)).1 = .ok [] ∧
    get_response (fun _ => .error "service down") (fun _ _ => .ok "ANSWER")
        (VectorStore.init 2) "q" "Compliance Analyst" 5 =
      ({ answer := no_docs_answer, sources := [], context_used := none }, false) :=
  ⟨rfl,
    (get_response_total (fun _ => .error "service down") (fun _ _ => .ok "ANSWER")
      (VectorStore.init 2) "q" "Compliance Analyst" 5).1 rfl⟩

end ReguChat
